import Mathlib

/-!
Verification development for the insight-response-gen repository.

The repository is a browser application whose core is an LLM section-generation
and streaming-orchestration engine (`src/lib/services/openai-service.ts`) and a
non-streaming analysis sibling (`document-analyzer`, shipped here as
`src/unnamed/part_000`).  This file gives a shallow embedding of that core:

* network effects (`fetch`, the streamed response body) are abstracted into an
  environment value describing the outcome of the single request a call makes;
* the platform `TextDecoder` is modelled as the identity on already-decoded
  strings (all inputs considered here are ASCII);
* the platform `JSON.parse` is modelled by the executable `jsonParse` below,
  faithful on the JSON fragment the code exercises (objects, arrays, strings
  with simple escapes, decimal numbers, booleans, null); its error messages
  are engine-specific in JavaScript and are fixed constants here;
* progress/chunk callbacks are modelled as an event trace, in invocation order;
* the per-instance `abortController` slot is modelled as an `Option Unit`
  threaded through each call (`none` = the field is `undefined`).

`Math.floor((chunkCount / 50) * 100)` is modelled by exact integer arithmetic
`(chunkCount * 100) / 50`; no claim under consideration depends on the
floating-point rounding of that heuristic.
-/

/-- JSON values, as produced by `JSON.parse`.  Numbers are modelled as exact
rationals (the inputs exercised by the code are short decimal literals). -/
inductive Json where
  | null : Json
  | bool (b : Bool) : Json
  | num (q : ℚ) : Json
  | str (s : String) : Json
  | arr (elems : List Json) : Json
  | obj (fields : List (String × Json)) : Json

/-- JavaScript truthiness of a parsed JSON value (`[]` and `{}` are truthy,
`""`, `0`, `false`, `null` are falsy). -/
def jsTruthy : Json → Bool
  | .null => false
  | .bool b => b
  | .num q => q ≠ 0
  | .str s => s ≠ ""
  | .arr _ => true
  | .obj _ => true

/-- Last-wins association lookup: `JSON.parse` keeps the last duplicate key. -/
def assocLast : List (String × Json) → String → Option Json
  | [], _ => none
  | (k', v) :: rest, k =>
    match assocLast rest k with
    | some r => some r
    | none => if k' = k then some v else none

/-- Property access `j.k` on a parsed JSON value: defined on objects,
`undefined` (here `none`) on everything else. -/
def jLookup : Json → String → Option Json
  | .obj fields, k => assocLast fields k
  | _, _ => none

/-- Index access `j[0]` on a parsed JSON value, as used by `choices?.[0]`. -/
def jIndex0 : Json → Option Json
  | .arr (x :: _) => some x
  | _ => none

/-- Whitespace skipping for the JSON reader. -/
def skipWs : List Char → List Char
  | [] => []
  | c :: cs => if c = ' ' ∨ c = '\n' ∨ c = '\t' ∨ c = '\r' then skipWs cs else c :: cs

/-- Translation of a JSON string escape character. -/
def escChar (c : Char) : Char :=
  if c = 'n' then '\n' else if c = 't' then '\t' else if c = 'r' then '\r' else c

/-- Reads the body of a JSON string literal after the opening quote; returns
the decoded characters and the input following the closing quote. -/
def parseStrChars : List Char → Option (List Char × List Char)
  | [] => none
  | '"' :: rest => some ([], rest)
  | '\\' :: c :: rest => (parseStrChars rest).map (fun p => (escChar c :: p.1, p.2))
  | c :: rest => (parseStrChars rest).map (fun p => (c :: p.1, p.2))

/-- Numeric value of a digit run. -/
def digitsToNat (ds : List Char) : Nat :=
  ds.foldl (fun a c => a * 10 + (c.toNat - 48)) 0

/-- Reads a JSON number (optional sign, integer part, optional fraction). -/
def parseNum (cs : List Char) : Option (ℚ × List Char) :=
  let signed := match cs with
    | '-' :: t => (true, t)
    | _ => (false, cs)
  let ds := signed.2.takeWhile Char.isDigit
  let cs2 := signed.2.dropWhile Char.isDigit
  if ds = [] then none
  else
    match cs2 with
    | '.' :: cs3 =>
      let fs := cs3.takeWhile Char.isDigit
      let cs4 := cs3.dropWhile Char.isDigit
      if fs = [] then none
      else
        let q : ℚ := (digitsToNat ds : ℚ) + (digitsToNat fs : ℚ) / ((10 : ℚ) ^ fs.length)
        some (if signed.1 then -q else q, cs4)
    | _ => some (if signed.1 then -(digitsToNat ds : ℚ) else (digitsToNat ds : ℚ), cs2)

mutual

/-- Fuel-indexed JSON value reader. -/
def parseValue : Nat → List Char → Option (Json × List Char)
  | 0, _ => none
  | Nat.succ fuel, cs =>
    match skipWs cs with
    | '{' :: rest =>
      match skipWs rest with
      | '}' :: r2 => some (.obj [], r2)
      | r2 => (parseFields fuel r2).map (fun p => (Json.obj p.1, p.2))
    | '[' :: rest =>
      match skipWs rest with
      | ']' :: r2 => some (.arr [], r2)
      | r2 => (parseElems fuel r2).map (fun p => (Json.arr p.1, p.2))
    | '"' :: rest => (parseStrChars rest).map (fun p => (Json.str (String.mk p.1), p.2))
    | 't' :: 'r' :: 'u' :: 'e' :: rest => some (.bool true, rest)
    | 'f' :: 'a' :: 'l' :: 's' :: 'e' :: rest => some (.bool false, rest)
    | 'n' :: 'u' :: 'l' :: 'l' :: rest => some (.null, rest)
    | cs' => (parseNum cs').map (fun p => (Json.num p.1, p.2))

/-- Fuel-indexed reader for the elements of a non-empty JSON array. -/
def parseElems : Nat → List Char → Option (List Json × List Char)
  | 0, _ => none
  | Nat.succ fuel, cs =>
    match parseValue fuel cs with
    | none => none
    | some (v, rest) =>
      match skipWs rest with
      | ',' :: r2 => (parseElems fuel r2).map (fun p => (v :: p.1, p.2))
      | ']' :: r2 => some ([v], r2)
      | _ => none

/-- Fuel-indexed reader for the fields of a non-empty JSON object. -/
def parseFields : Nat → List Char → Option (List (String × Json) × List Char)
  | 0, _ => none
  | Nat.succ fuel, cs =>
    match skipWs cs with
    | '"' :: rest =>
      match parseStrChars rest with
      | none => none
      | some (k, r2) =>
        match skipWs r2 with
        | ':' :: r3 =>
          match parseValue fuel r3 with
          | none => none
          | some (v, r4) =>
            match skipWs r4 with
            | ',' :: r5 => (parseFields fuel r5).map (fun p => ((String.mk k, v) :: p.1, p.2))
            | '}' :: r5 => some ([(String.mk k, v)], r5)
            | _ => none
        | _ => none
    | _ => none

end

/-- Model of `JSON.parse`: reads one value and requires only whitespace after
it.  The JavaScript engine's error messages are engine-specific; they are
fixed constants here. -/
def jsonParse (s : String) : Except String Json :=
  match parseValue (2 * s.data.length + 2) s.data with
  | none => .error "Unexpected token in JSON"
  | some (j, rest) =>
    if skipWs rest = [] then .ok j
    else .error "Unexpected non-whitespace character after JSON data"

/-- The optional chain `parsed.choices?.[0]?.delta?.content`, yielding the
delta string when the path leads to a string value. -/
def extractDelta (j : Json) : Option String :=
  match ((jLookup j "choices").bind jIndex0 |>.bind (jLookup · "delta")
      |>.bind (jLookup · "content")) with
  | some (.str s) => some s
  | _ => none

/-- Status of a `GenerationProgress` event (`openai-service.ts`). -/
inductive GStatus where
  | pending | generating | completed | error
deriving DecidableEq, Repr

/-- The `GenerationProgress` record passed to `onProgress` callbacks. -/
structure GenerationProgress where
  sectionId : String
  status : GStatus
  progress : Nat
  content : Option String
  error : Option String
deriving DecidableEq, Repr

/-- One observable effect of a `generateSection` call, in order: the network
request being issued, an `onProgress` invocation, or an `onChunk` invocation. -/
inductive GenEvent where
  | fetchReq
  | prog (p : GenerationProgress)
  | chunk (s : String)
deriving DecidableEq, Repr

/-- Outcome of the single `fetch` a call issues: a network-level rejection, or
a response with its `ok` flag, status, status text and (for the streaming
service) an optional body given as the successive strings delivered by
`reader.read()` after text-decoding. -/
inductive FetchOutcome where
  | netError (msg : String)
  | resp (ok : Bool) (status : Nat) (statusText : String) (body : Option (List String))
deriving DecidableEq, Repr

/-- Environment of one `generateSection` call: the feature flag and the fetch
outcome.  The request body (model, prompt, token budget) only influences the
remote side, which the fetch outcome abstracts. -/
structure GenEnv where
  enableAIGeneration : Bool
  fetch : FetchOutcome

/-- Result of processing one read's lines (`for (const line of lines)`). -/
structure LineOut where
  events : List GenEvent
  content : String
  count : Nat
  done : Bool
deriving DecidableEq, Repr

/-- The progress heuristic `Math.min(95, Math.floor((chunkCount / 50) * 100))`,
in exact integer arithmetic. -/
def progressOf (count : Nat) : Nat := min 95 ((count * 100) / 50)

/-- JavaScript `chunk.split('\n')` on the characters of one read: splits at
every newline and keeps empty segments. -/
def splitNlAux : List Char → List Char → List (List Char)
  | [], acc => [acc.reverse]
  | c :: rest, acc =>
    if c = '\n' then acc.reverse :: splitNlAux rest []
    else splitNlAux rest (c :: acc)

/-- The lines of one decoded read. -/
def splitNl (s : String) : List (List Char) := splitNlAux s.data []

/-- The inner loop of `generateSection`'s stream reader: one decoded read is
split on newlines and each line is examined; `data: ` frames carrying a JSON
payload with a non-empty delta emit a chunk callback and a progress event;
the `[DONE]` sentinel emits the completed event and returns immediately
(remaining lines are not examined); unparsable payloads are ignored. -/
def processLines (sectionType : String) : List (List Char) → String → Nat → LineOut
  | [], acc, cnt => ⟨[], acc, cnt, false⟩
  | line :: rest, acc, cnt =>
    if "data: ".data.isPrefixOf line then
      let data := line.drop 6
      if data = "[DONE]".data then
        ⟨[.prog ⟨sectionType, .completed, 100, some acc, none⟩], acc, cnt, true⟩
      else
        match jsonParse (String.mk data) with
        | .ok parsed =>
          match extractDelta parsed with
          | some c =>
            if c = "" then processLines sectionType rest acc cnt
            else
              let acc' := acc ++ c
              let cnt' := cnt + 1
              let out := processLines sectionType rest acc' cnt'
              ⟨.chunk c ::
                 .prog ⟨sectionType, .generating, progressOf cnt', some acc', none⟩ ::
                 out.events,
               out.content, out.count, out.done⟩
          | none => processLines sectionType rest acc cnt
        | .error _ => processLines sectionType rest acc cnt
    else processLines sectionType rest acc cnt

/-- Result of draining the whole response body. -/
structure StreamOut where
  events : List GenEvent
  content : String
  done : Bool
deriving DecidableEq, Repr

/-- The outer `while (true)` read loop of `generateSection`: each read is
decoded and split on newline in isolation (no remainder is carried between
reads), and the loop stops early when a read's processing hit `[DONE]`. -/
def processReads (sectionType : String) : List String → String → Nat → StreamOut
  | [], acc, _ => ⟨[], acc, false⟩
  | r :: rest, acc, cnt =>
    let lo := processLines sectionType (splitNl r) acc cnt
    if lo.done then ⟨lo.events, lo.content, true⟩
    else
      let so := processReads sectionType rest lo.content lo.count
      ⟨lo.events ++ so.events, so.content, so.done⟩

/-- Observable outcome of a `generateSection` call: the settled promise, the
event trace, and the instance's `abortController` slot after the call. -/
structure GenOut where
  result : Except String String
  events : List GenEvent
  ctrl : Option Unit

/-- Model of `OpenAIService.generateSection`.  The feature-flag failure is
thrown before the `try` block, so it emits no events and leaves the
controller slot untouched; every other path runs the `finally` clause, which
clears the slot. -/
def generateSection (env : GenEnv) (sectionType : String) (ctrl0 : Option Unit) : GenOut :=
  if env.enableAIGeneration = false then
    ⟨.error "AI generation is disabled in configuration", [], ctrl0⟩
  else
    let ev0 : GenEvent := .prog ⟨sectionType, .generating, 0, none, none⟩
    match env.fetch with
    | .netError m =>
      ⟨.error m, [ev0, .fetchReq, .prog ⟨sectionType, .error, 0, none, some m⟩], none⟩
    | .resp ok status statusText body =>
      if ok = false then
        let m := "OpenAI API error: " ++ toString status ++ " " ++ statusText
        ⟨.error m, [ev0, .fetchReq, .prog ⟨sectionType, .error, 0, none, some m⟩], none⟩
      else
        match body with
        | none =>
          let m := "No response body received"
          ⟨.error m, [ev0, .fetchReq, .prog ⟨sectionType, .error, 0, none, some m⟩], none⟩
        | some reads =>
          let so := processReads sectionType reads "" 0
          ⟨.ok so.content, ev0 :: .fetchReq :: so.events, none⟩

/-- The text recorded for one section by `generateMultipleSections`: the
generated content, or the inline placeholder built from the error message. -/
def sectionResultText (r : Except String String) : String :=
  match r with
  | .ok c => c
  | .error m => "Error generating content: " ++ m

/-- JavaScript object assignment `results[sectionType] = v`: overwrite in
place if the key exists, else append. -/
def recSet : List (String × String) → String → String → List (String × String)
  | [], k, v => [(k, v)]
  | (k', v') :: rest, k, v =>
    if k' = k then (k, v) :: rest else (k', v') :: recSet rest k v

/-- Key lookup in the results record. -/
def recGet : List (String × String) → String → Option String
  | [], _ => none
  | (k', v') :: rest, k => if k' = k then some v' else recGet rest k

/-- The `SectionTemplate` record. -/
structure SectionTemplate where
  id : String
  name : String
  description : String
  promptTemplate : String
  maxTokens : Option Nat
deriving DecidableEq, Repr

/-- Model of `generateMultipleSections`: sections run sequentially; each
section's failure is caught locally and recorded as a placeholder string;
the per-instance controller slot is threaded through the calls.  `envOf`
gives the fetch environment each section's call will encounter. -/
def generateMultipleSections (envOf : String → GenEnv) :
    List (String × SectionTemplate) → List (String × String) → Option Unit →
    List (String × String) × Option Unit
  | [], results, ctrl => (results, ctrl)
  | (sectionType, _tmpl) :: rest, results, ctrl =>
    let out := generateSection (envOf sectionType) sectionType ctrl
    generateMultipleSections envOf rest
      (recSet results sectionType (sectionResultText out.result)) out.ctrl

/-- Model of `cancelGeneration`: aborts and resets the slot to `undefined`. -/
def cancelGeneration (_ctrl : Option Unit) : Option Unit := none

/-- Status of an `AnalysisProgress` event (`document-analyzer`). -/
inductive AStatus where
  | idle | analyzing | completed | error
deriving DecidableEq, Repr

/-- The `AnalysisProgress` record passed to the analyzer's `onProgress`. -/
structure AnalysisProgress where
  status : AStatus
  progress : Nat
  currentStep : Option String
  error : Option String
deriving DecidableEq, Repr

/-- One observable effect of an `analyzeDocument` call. -/
inductive AnEvent where
  | fetchReq
  | prog (p : AnalysisProgress)
deriving DecidableEq, Repr

/-- Outcome of the analyzer's single non-streamed `fetch`.  `content` is the
value of `data.choices?.[0]?.message?.content` after `response.json()`
(`none` covers an absent path). -/
inductive AnFetch where
  | netError (msg : String)
  | resp (ok : Bool) (status : Nat) (statusText : String) (content : Option String)
deriving DecidableEq, Repr

/-- Environment of one `analyzeDocument` call. -/
structure AnEnv where
  enableAIGeneration : Bool
  fetch : AnFetch

/-- Index of the first occurrence of a character in a list. -/
def charIdx (c : Char) : List Char → Option Nat
  | [] => none
  | x :: xs => if x = c then some 0 else (charIdx c xs).map (· + 1)

/-- The regex extraction `content.match(/\x7b[\s\S]*\x7d/)` of the analyzer:
the (leftmost, greedy) match runs from the first `{` of the reply to the
last `}`, provided the latter comes after the former. -/
def extractJson (s : String) : Option String :=
  match charIdx '{' s.data, (charIdx '}' s.data.reverse).map
      (fun k => s.data.length - 1 - k) with
  | some i, some j =>
    if i < j then some (String.mk ((s.data.drop i).take (j - i + 1))) else none
  | _, _ => none

/-- `x || d` on an optionally-present JSON value, as in `processAnalysis`'s
default-filling (`undefined`, `""`, `0`, `false`, `null` all fall back). -/
def jsOr (o : Option Json) (d : Json) : Json :=
  match o with
  | some v => if jsTruthy v then v else d
  | none => d

/-- The two-step optional chain `analysis.k1?.k2`. -/
def chainKK (j : Json) (k1 k2 : String) : Option Json :=
  (jLookup j k1).bind (fun c => jLookup c k2)

/-- The `criticalRequirementsMatrix` component of the processed analysis.
Collection fields keep the parsed JSON value they were filled from; the
processing only guarantees their presence, not their element shapes. -/
structure CriticalRequirementsMatrix where
  mandatory : Json
  desired : Json
  «optional» : Json
  hidden : Json

/-- The `evaluationCriteria` component of the processed analysis. -/
structure EvaluationCriteria where
  scoringMethodology : Json
  criteria : Json
  budgetIndicators : Json
  riskFactors : Json

/-- The `strategicIntelligence` component of the processed analysis. -/
structure StrategicIntelligence where
  incumbentAdvantages : Json
  politicalLandscape : Json
  timelinePressures : Json
  competitiveOpportunities : Json
  confidence : Json

/-- The `winThemes` component of the processed analysis. -/
structure WinThemes where
  primaryValueDrivers : Json
  painPoints : Json
  keyDifferentiators : Json
  requiredProofPoints : Json
  confidence : Json

/-- The structurally total analysis record returned by `processAnalysis`:
every field and sub-field is present by construction. -/
structure DocumentAnalysis where
  criticalRequirementsMatrix : CriticalRequirementsMatrix
  evaluationCriteria : EvaluationCriteria
  strategicIntelligence : StrategicIntelligence
  winThemes : WinThemes
  redFlags : Json
  deadlines : Json
  stakeholders : Json

/-- Model of `DocumentAnalyzerService.processAnalysis`, applied to the raw
parsed JSON value (the TypeScript source casts without validating): each
expected field is read through an optional chain and defaulted to an empty
array, the string `Not specified`, or the number `0.5`. -/
def processAnalysis (analysis : Json) : DocumentAnalysis :=
  { criticalRequirementsMatrix :=
      { mandatory := jsOr (chainKK analysis "criticalRequirementsMatrix" "mandatory") (.arr [])
        desired := jsOr (chainKK analysis "criticalRequirementsMatrix" "desired") (.arr [])
        «optional» := jsOr (chainKK analysis "criticalRequirementsMatrix" "optional") (.arr [])
        hidden := jsOr (chainKK analysis "criticalRequirementsMatrix" "hidden") (.arr []) }
    evaluationCriteria :=
      { scoringMethodology :=
          jsOr (chainKK analysis "evaluationCriteria" "scoringMethodology") (.str "Not specified")
        criteria := jsOr (chainKK analysis "evaluationCriteria" "criteria") (.arr [])
        budgetIndicators :=
          jsOr (chainKK analysis "evaluationCriteria" "budgetIndicators") (.str "Not specified")
        riskFactors := jsOr (chainKK analysis "evaluationCriteria" "riskFactors") (.arr []) }
    strategicIntelligence :=
      { incumbentAdvantages :=
          jsOr (chainKK analysis "strategicIntelligence" "incumbentAdvantages") (.str "Not specified")
        politicalLandscape :=
          jsOr (chainKK analysis "strategicIntelligence" "politicalLandscape") (.str "Not specified")
        timelinePressures :=
          jsOr (chainKK analysis "strategicIntelligence" "timelinePressures") (.str "Not specified")
        competitiveOpportunities :=
          jsOr (chainKK analysis "strategicIntelligence" "competitiveOpportunities") (.str "Not specified")
        confidence := jsOr (chainKK analysis "strategicIntelligence" "confidence") (.num (1 / 2)) }
    winThemes :=
      { primaryValueDrivers := jsOr (chainKK analysis "winThemes" "primaryValueDrivers") (.arr [])
        painPoints := jsOr (chainKK analysis "winThemes" "painPoints") (.arr [])
        keyDifferentiators := jsOr (chainKK analysis "winThemes" "keyDifferentiators") (.arr [])
        requiredProofPoints := jsOr (chainKK analysis "winThemes" "requiredProofPoints") (.arr [])
        confidence := jsOr (chainKK analysis "winThemes" "confidence") (.num (1 / 2)) }
    redFlags := jsOr (jLookup analysis "redFlags") (.arr [])
    deadlines := jsOr (jLookup analysis "deadlines") (.arr [])
    stakeholders := jsOr (jLookup analysis "stakeholders") (.arr []) }

/-- Removes leading JavaScript whitespace characters. -/
def dropWsLeft : List Char → List Char
  | [] => []
  | c :: cs => if c.isWhitespace then dropWsLeft cs else c :: cs

/-- `content.trim()`, as the character list with leading and trailing
whitespace removed (JavaScript trims a slightly larger Unicode class; the
difference is immaterial to the content considered here). -/
def jsTrimData (s : String) : List Char :=
  (dropWsLeft ((dropWsLeft s.data).reverse)).reverse

/-- The `{isValid, error?}` record returned by `validateDocumentContent`. -/
structure ValidationResult where
  isValid : Bool
  error : Option String
deriving DecidableEq, Repr

/-- Model of `validateDocumentContent`: empty or whitespace-only content is
invalid, trimmed content under 50 characters is invalid, all else valid. -/
def validateDocumentContent (content : String) : ValidationResult :=
  if content = "" ∨ (jsTrimData content).length = 0 then
    ⟨false, some "Document content is empty"⟩
  else if (jsTrimData content).length < 50 then
    ⟨false, some "Document content is too short for meaningful analysis"⟩
  else
    ⟨true, none⟩

/-- Observable outcome of an `analyzeDocument` call. -/
structure AnOut where
  result : Except String DocumentAnalysis
  events : List AnEvent
  ctrl : Option Unit

/-- Model of `DocumentAnalyzerService.analyzeDocument`.  The feature-flag
failure is thrown before the `try` block (no events, controller slot
untouched); every other failure is caught, emits one error progress event,
and rejects with the wrapped message.  The document content only feeds the
prompt inside the request body, which `env.fetch` abstracts; no validation
of it happens inside this method.  There is no `finally`: the controller
slot set at the start of the call is never cleared by the call itself. -/
def analyzeDocument (env : AnEnv) (_documentContent : String) (ctrl0 : Option Unit) : AnOut :=
  if env.enableAIGeneration = false then
    ⟨.error "AI generation is disabled in configuration", [], ctrl0⟩
  else
    let ev0 : AnEvent := .prog ⟨.analyzing, 0, some "Preparing analysis...", none⟩
    match env.fetch with
    | .netError m =>
      ⟨.error ("Document analysis failed: " ++ m),
       [ev0, .fetchReq, .prog ⟨.error, 0, none, some m⟩], some ()⟩
    | .resp ok status statusText content =>
      if ok = false then
        let m := "OpenAI API error: " ++ toString status ++ " " ++ statusText
        ⟨.error ("Document analysis failed: " ++ m),
         [ev0, .fetchReq, .prog ⟨.error, 0, none, some m⟩], some ()⟩
      else
        let ev50 : AnEvent := .prog ⟨.analyzing, 50, some "Processing analysis results...", none⟩
        match content with
        | none =>
          let m := "No analysis content received from OpenAI"
          ⟨.error ("Document analysis failed: " ++ m),
           [ev0, .fetchReq, ev50, .prog ⟨.error, 0, none, some m⟩], some ()⟩
        | some c =>
          if c = "" then
            let m := "No analysis content received from OpenAI"
            ⟨.error ("Document analysis failed: " ++ m),
             [ev0, .fetchReq, ev50, .prog ⟨.error, 0, none, some m⟩], some ()⟩
          else
            match extractJson c with
            | none =>
              let m := "Invalid JSON response from analysis"
              ⟨.error ("Document analysis failed: " ++ m),
               [ev0, .fetchReq, ev50, .prog ⟨.error, 0, none, some m⟩], some ()⟩
            | some jstr =>
              let ev90 : AnEvent := .prog ⟨.analyzing, 90, some "Finalizing results...", none⟩
              match jsonParse jstr with
              | .error m =>
                ⟨.error ("Document analysis failed: " ++ m),
                 [ev0, .fetchReq, ev50, ev90, .prog ⟨.error, 0, none, some m⟩], some ()⟩
              | .ok j =>
                ⟨.ok (processAnalysis j),
                 [ev0, .fetchReq, ev50, ev90,
                  .prog ⟨.completed, 100, some "Analysis complete", none⟩], some ()⟩

/-- Model of `cancelAnalysis`: aborts the in-flight request but, unlike
`cancelGeneration`, never resets the controller slot. -/
def cancelAnalysis (ctrl : Option Unit) : Option Unit := ctrl

/-- Whether `p` occurs as a contiguous substring of `s` (`String.includes`). -/
def containsSub (p : List Char) : List Char → Bool
  | [] => p.isEmpty
  | c :: rest => p.isPrefixOf (c :: rest) || containsSub p rest

/-- `containsSub` lifted to strings: does `s` contain the token `tok`? -/
def containsTok (s tok : String) : Bool := containsSub tok.data s.data

/-- JavaScript `String.prototype.replace` with a string pattern: replaces the
first occurrence only, returns the string unchanged when absent. -/
def replaceFirstAux (s pat repl : List Char) : List Char :=
  match s with
  | [] => []
  | c :: rest =>
    if pat.isPrefixOf (c :: rest) then repl ++ (c :: rest).drop pat.length
    else c :: replaceFirstAux rest pat repl

/-- `replaceFirstAux` lifted to strings. -/
def replaceFirstS (s pat repl : String) : String :=
  String.mk (replaceFirstAux s.data pat.data repl.data)

/-- The bulleted list `items.map(x => "- " + x).join("\n")`. -/
def joinDash : List String → String
  | [] => ""
  | [r] => "- " ++ r
  | r :: rest => "- " ++ r ++ "\n" ++ joinDash rest

/-- The `GenerationContext` record.  The optional string fields are modelled
as strings with `""` for absent (the source tests them for truthiness, which
identifies `undefined` and `""`); the optional lists as lists with `[]` for
absent (the source tests presence and non-zero length). -/
structure GenerationContext where
  rfpContent : String
  companyProfile : String
  requirements : List String
  constraints : List String
  targetAudience : String

/-- Model of `OpenAIService.buildPrompt`.  `rel` stands for the external
`companyDocuments.getRelevantContentForRFP` collaborator.  Modelled from the
spec: the `company-documents` module is not among the provided sources; per
the spec it is a pure lookup `(sourceContent, sectionId) → string|empty`, so
it is passed in as an arbitrary function and its result is appended under a
final heading when the RFP content and the result are both non-empty. -/
def buildPrompt (sectionType : String) (context : GenerationContext)
    (template : SectionTemplate) (rel : String → String → String) : String :=
  let basePrompt := template.promptTemplate
  let p0 := replaceFirstS (replaceFirstS basePrompt "\x7bsectionType\x7d" sectionType)
      "\x7btemplateName\x7d" template.name
  let p1 := if context.rfpContent ≠ "" then
      p0 ++ "\n\nRFP Content:\n" ++ context.rfpContent else p0
  let p2 := if context.companyProfile ≠ "" then
      p1 ++ "\n\nCompany Profile:\n" ++ context.companyProfile else p1
  let p3 := if context.requirements ≠ [] then
      p2 ++ "\n\nKey Requirements:\n" ++ joinDash context.requirements else p2
  let p4 := if context.constraints ≠ [] then
      p3 ++ "\n\nConstraints:\n" ++ joinDash context.constraints else p3
  let p5 := if context.targetAudience ≠ "" then
      p4 ++ "\n\nTarget Audience:\n" ++ context.targetAudience else p4
  let relevantContent := rel context.rfpContent sectionType
  if context.rfpContent ≠ "" ∧ relevantContent ≠ "" then
    p5 ++ "\n\nRelevant Company Information:\n" ++ relevantContent
  else p5

/-- The static template map `OpenAIService.getSectionTemplates`, as an
association list in source order; the prompt template strings are verbatim
(braces written as escapes). -/
def getSectionTemplates : List (String × SectionTemplate) := [
  ("executive-summary", ⟨"executive-summary", "Executive Summary",
    "High-level overview of the proposed solution",
    "Create a compelling executive summary for the \x7bsectionType\x7d section of an RFP response. \n        This should be a concise, high-level overview that captures the key value propositions and differentiators.\n        Focus on business outcomes and strategic benefits. Leverage the critical requirements matrix and win themes\n        to demonstrate clear understanding of the customer\x27s needs and your strategic positioning.",
    some 800⟩),
  ("company-overview", ⟨"company-overview", "Company Overview",
    "Introduction to the company and its capabilities",
    "Write a professional company overview section that establishes credibility and expertise.\n        Highlight relevant experience, certifications, and success stories that align with the RFP requirements.\n        Address the strategic intelligence insights and demonstrate how your company\x27s strengths position you\n        to overcome incumbent advantages and competitive challenges.",
    some 600⟩),
  ("technical-approach", ⟨"technical-approach", "Technical Approach",
    "Detailed technical methodology and solution design",
    "Develop a comprehensive technical approach section that demonstrates deep understanding of the requirements.\n        Include methodology, architecture considerations, implementation strategy, and technical innovations.\n        Show how your approach addresses the specific challenges outlined in the RFP and leverages the evaluation criteria\n        to maximize scoring potential. Address any red flags identified in the analysis with mitigation strategies.",
    some 1200⟩),
  ("project-timeline", ⟨"project-timeline", "Project Timeline",
    "Detailed project schedule and milestones",
    "Create a realistic and detailed project timeline with clear milestones and deliverables.\n        Include phases, key activities, dependencies, and resource allocation considerations.\n        Demonstrate project management expertise and risk mitigation strategies. Address timeline pressures\n        identified in the strategic intelligence and ensure alignment with critical deadlines.",
    some 800⟩),
  ("team-structure", ⟨"team-structure", "Team Structure",
    "Proposed team composition and roles",
    "Design an optimal team structure for this project, including key roles, responsibilities, and qualifications.\n        Highlight team member expertise, relevant experience, and how the team composition ensures project success.\n        Include organizational structure and reporting relationships. Align team capabilities with stakeholder\n        priorities and evaluation criteria to maximize scoring potential.",
    some 700⟩),
  ("pricing", ⟨"pricing", "Pricing Framework",
    "Cost structure and pricing strategy",
    "Develop a competitive and transparent pricing framework that demonstrates value for money.\n        Include cost breakdown, payment terms, and value-added services. Leverage budget indicators and price\n        sensitivity analysis to position pricing strategically. Justify pricing decisions and show ROI for the client.",
    some 600⟩),
  ("references", ⟨"references", "References & Case Studies",
    "Relevant client references and success stories",
    "Create compelling case studies and references that demonstrate relevant experience and successful outcomes.\n        Include specific metrics, challenges overcome, and client testimonials where appropriate.\n        Focus on projects similar in scope and complexity to the current RFP. Provide proof points that align\n        with the required proof points identified in the win themes analysis.",
    some 900⟩),
  ("compliance", ⟨"compliance", "Compliance & Certifications",
    "Regulatory compliance and quality certifications",
    "Detail all relevant certifications, compliance standards, and quality assurance processes.\n        Include specific certifications, audit results, and compliance frameworks that apply to this project.\n        Demonstrate commitment to quality, security, and regulatory requirements.",
    some 500⟩)]

/-- The literal placeholder token `{sectionType}`. -/
def tokST : String := "\x7bsectionType\x7d"

/-- The literal placeholder token `{templateName}`. -/
def tokTN : String := "\x7btemplateName\x7d"

/-- All five context payloads are free of the token `tok`. -/
def ctxTokenFree (ctx : GenerationContext) (tok : String) : Prop :=
  containsTok ctx.rfpContent tok = false ∧
  containsTok ctx.companyProfile tok = false ∧
  (∀ r ∈ ctx.requirements, containsTok r tok = false) ∧
  (∀ r ∈ ctx.constraints, containsTok r tok = false) ∧
  containsTok ctx.targetAudience tok = false

/-- The progress records of a generation event trace, in emission order. -/
def progEvents (evs : List GenEvent) : List GenerationProgress :=
  evs.filterMap (fun e => match e with | .prog p => some p | _ => none)

/-- The chunk payloads of a generation event trace, in emission order. -/
def chunkEvents (evs : List GenEvent) : List String :=
  evs.filterMap (fun e => match e with | .chunk s => some s | _ => none)

/-- Boolean status test on a generation progress record. -/
def hasStatus (st : GStatus) (p : GenerationProgress) : Bool := p.status == st

/-- The progress records of an analyzer event trace, in emission order. -/
def anProgEvents (evs : List AnEvent) : List AnalysisProgress :=
  evs.filterMap (fun e => match e with | .prog p => some p | _ => none)

/-- Boolean status test on an analysis progress record. -/
def hasAStatus (st : AStatus) (p : AnalysisProgress) : Bool := p.status == st

/-- Classifies the fetch outcomes that make `generateSection` fail after the
feature-flag check, with the message the failure carries. -/
def genFailMsg : FetchOutcome → Option String
  | .netError m => some m
  | .resp ok status statusText body =>
    if ok = false then some ("OpenAI API error: " ++ toString status ++ " " ++ statusText)
    else
      match body with
      | none => some "No response body received"
      | some _ => none

/-- Classifies the fetch outcomes that make `analyzeDocument` fail after the
feature-flag check, with the message the failure carries. -/
def anFailMsg : AnFetch → Option String
  | .netError m => some m
  | .resp ok status statusText content =>
    if ok = false then some ("OpenAI API error: " ++ toString status ++ " " ++ statusText)
    else
      match content with
      | none => some "No analysis content received from OpenAI"
      | some c =>
        if c = "" then some "No analysis content received from OpenAI"
        else
          match extractJson c with
          | none => some "Invalid JSON response from analysis"
          | some jstr =>
            match jsonParse jstr with
            | .error pm => some pm
            | .ok _ => none

/-- SSE frame carrying the delta `"Hello"`. -/
def helloFrame : String :=
  "data: \x7b\"choices\":[\x7b\"delta\":\x7b\"content\":\"Hello\"\x7d\x7d]\x7d\n"

/-- SSE frame carrying the delta `" world"`. -/
def worldFrame : String :=
  "data: \x7b\"choices\":[\x7b\"delta\":\x7b\"content\":\" world\"\x7d\x7d]\x7d\n"

/-- The terminal SSE frame. -/
def doneFrame : String := "data: [DONE]\n"

/-- The two-frame byte sequence of the stream-decoder claim: one `"ab"` delta
frame followed by the sentinel frame. -/
def frameBytesC1 : String :=
  "data: \x7b\"choices\":[\x7b\"delta\":\x7b\"content\":\"ab\"\x7d\x7d]\x7d\n" ++ doneFrame

/-- The finest partition of a byte sequence into reads: one byte per read. -/
def byteReads (s : String) : List String := s.data.map (fun c => String.mk [c])

/-- A well-formed analyzer reply consisting of a bare JSON object. -/
def okAnalysisReply : String := "\x7b\"stakeholders\":[]\x7d"

/-- An analyzer reply with prose around a single JSON object whose trailing
prose contains a closing brace. -/
def replyC6 : String := "Result: \x7b\"a\":1\x7d extra\x7d"

/-- The single JSON object embedded in `replyC6`. -/
def embeddedC6 : String := "\x7b\"a\":1\x7d"

/-- Whether an `Except` settled successfully. -/
def exceptIsOk {ε α : Type} : Except ε α → Bool
  | .ok _ => true
  | .error _ => false

/-- C1: the stream decoder is NOT insensitive to read boundaries.  When the
byte sequence consisting of the `"ab"` delta frame followed by the `[DONE]`
frame is delivered one byte per read, the call emits no chunk callback and
no completed progress event and resolves with the empty string, because
each read is split on newline in isolation with no remainder carried over;
the same bytes delivered in a single read produce exactly one `"ab"` chunk
and one completed event.  This contradicts the claimed insensitivity (and
the spec's required remainder buffering). -/
theorem C1_byte_partition_loses_frames :
    (generateSection ⟨true, .resp true 200 "OK" (some (byteReads frameBytesC1))⟩
        "sec" none).result = .ok "" ∧
    chunkEvents (generateSection ⟨true, .resp true 200 "OK" (some (byteReads frameBytesC1))⟩
        "sec" none).events = [] ∧
    (progEvents (generateSection ⟨true, .resp true 200 "OK" (some (byteReads frameBytesC1))⟩
        "sec" none).events).filter (hasStatus .completed) = [] ∧
    (generateSection ⟨true, .resp true 200 "OK" (some [frameBytesC1])⟩ "sec" none).result
        = .ok "ab" ∧
    chunkEvents (generateSection ⟨true, .resp true 200 "OK" (some [frameBytesC1])⟩
        "sec" none).events = ["ab"] ∧
    (progEvents (generateSection ⟨true, .resp true 200 "OK" (some [frameBytesC1])⟩
        "sec" none).events).filter (hasStatus .completed)
        = [⟨"sec", .completed, 100, some "ab", none⟩] :=
  ⟨rfl, by decide, by decide, rfl, by decide, by decide⟩

/-- C2: on a successful stream delivering the deltas `"Hello"` and `" world"`
followed by the `[DONE]` sentinel, `generateSection` resolves with
`"Hello world"`, the chunk callbacks are exactly those two deltas, and the
final progress invocation is `completed, 100, content = "Hello world"`. -/
theorem C2_hello_world_stream :
    (generateSection ⟨true, .resp true 200 "OK" (some [helloFrame, worldFrame, doneFrame])⟩
        "executive-summary" none).result = .ok "Hello world" ∧
    chunkEvents (generateSection ⟨true, .resp true 200 "OK"
        (some [helloFrame, worldFrame, doneFrame])⟩ "executive-summary" none).events
        = ["Hello", " world"] ∧
    (progEvents (generateSection ⟨true, .resp true 200 "OK"
        (some [helloFrame, worldFrame, doneFrame])⟩ "executive-summary" none).events).getLast?
        = some ⟨"executive-summary", .completed, 100, some "Hello world", none⟩ :=
  ⟨rfl, by decide, by decide⟩

/-- C3: refutation of the claim that EVERY failure (including the disabled
feature flag) emits exactly one error progress event.  The feature-flag
check throws before the `try` block in both services, so that failure
rejects with zero progress events emitted. -/
theorem C3_counterexample :
    (generateSection ⟨false, .netError "unused"⟩ "sec" none).result
        = .error "AI generation is disabled in configuration" ∧
    (generateSection ⟨false, .netError "unused"⟩ "sec" none).events = [] ∧
    (analyzeDocument ⟨false, .netError "unused"⟩ "doc" none).result
        = .error "AI generation is disabled in configuration" ∧
    (analyzeDocument ⟨false, .netError "unused"⟩ "doc" none).events = [] :=
  ⟨rfl, by decide, rfl, by decide⟩

/-- C3 (amended): every failure occurring after the feature-flag check
(network rejection, non-success HTTP status, missing body or missing/
unparsable analysis content) emits exactly one error progress event with
progress 0 carrying the failure message, and the call rejects — the section
generator with the message itself, the analyzer with the wrapped message;
the feature-flag failure alone rejects without emitting any event. -/
theorem C3_post_flag_failures_one_error_event :
    (∀ (env : GenEnv) (st : String) (c : Option Unit) (m : String),
        env.enableAIGeneration = true → genFailMsg env.fetch = some m →
        (generateSection env st c).result = .error m ∧
        (generateSection env st c).events =
          [.prog ⟨st, .generating, 0, none, none⟩, .fetchReq,
           .prog ⟨st, .error, 0, none, some m⟩]) ∧
    (∀ (env : AnEnv) (doc : String) (c : Option Unit) (m : String),
        env.enableAIGeneration = true → anFailMsg env.fetch = some m →
        (analyzeDocument env doc c).result = .error ("Document analysis failed: " ++ m) ∧
        (anProgEvents (analyzeDocument env doc c).events).filter (hasAStatus .error)
          = [⟨.error, 0, none, some m⟩]) := by
  constructor
  · rintro ⟨e, f⟩ st c m he hf
    cases he
    cases f with
    | netError m' =>
      simp only [genFailMsg, Option.some.injEq] at hf
      cases hf
      exact ⟨rfl, rfl⟩
    | resp ok status stext body =>
      cases ok with
      | false =>
        simp only [genFailMsg, if_pos rfl, Option.some.injEq] at hf
        cases hf
        exact ⟨rfl, rfl⟩
      | true =>
        cases body with
        | none =>
          simp only [genFailMsg] at hf
          cases hf
          exact ⟨rfl, rfl⟩
        | some reads =>
          simp [genFailMsg] at hf
  · rintro ⟨e, f⟩ doc c m he hf
    cases he
    cases f with
    | netError m' =>
      simp only [anFailMsg, Option.some.injEq] at hf
      cases hf
      exact ⟨rfl, by simp [analyzeDocument, anProgEvents, hasAStatus]⟩
    | resp ok status stext content =>
      cases ok with
      | false =>
        simp only [anFailMsg, if_pos rfl, Option.some.injEq] at hf
        cases hf
        exact ⟨rfl, by simp [analyzeDocument, anProgEvents, hasAStatus]⟩
      | true =>
        cases content with
        | none =>
          simp only [anFailMsg] at hf
          cases hf
          exact ⟨rfl, by simp [analyzeDocument, anProgEvents, hasAStatus]⟩
        | some s =>
          by_cases hs : s = ""
          · subst hs
            simp only [anFailMsg] at hf
            cases hf
            exact ⟨rfl, by simp [analyzeDocument, anProgEvents, hasAStatus]⟩
          · cases hex : extractJson s with
            | none =>
              simp only [anFailMsg, if_neg hs, hex] at hf
              cases hf
              refine ⟨?_, ?_⟩
              · simp [analyzeDocument, hex, if_neg hs]
              · simp [analyzeDocument, hex, if_neg hs, anProgEvents, hasAStatus]
            | some jstr =>
              cases hjp : jsonParse jstr with
              | error pm =>
                simp only [anFailMsg, if_neg hs, hex, hjp] at hf
                cases hf
                refine ⟨?_, ?_⟩
                · simp [analyzeDocument, hex, hjp, if_neg hs]
                · simp [analyzeDocument, hex, hjp, if_neg hs, anProgEvents, hasAStatus]
              | ok j =>
                simp [anFailMsg, hs, hex, hjp] at hf

/-- C3 witness: a network-level rejection in each service, instantiating the
amended theorem. -/
theorem C3_witness :
    ((generateSection ⟨true, .netError "boom"⟩ "s" none).result = .error "boom" ∧
     (generateSection ⟨true, .netError "boom"⟩ "s" none).events =
       [.prog ⟨"s", .generating, 0, none, none⟩, .fetchReq,
        .prog ⟨"s", .error, 0, none, some "boom"⟩]) ∧
    ((analyzeDocument ⟨true, .netError "boom"⟩ "d" none).result
        = .error "Document analysis failed: boom" ∧
     (anProgEvents (analyzeDocument ⟨true, .netError "boom"⟩ "d" none).events).filter
        (hasAStatus .error) = [⟨.error, 0, none, some "boom"⟩]) :=
  ⟨C3_post_flag_failures_one_error_event.1 ⟨true, .netError "boom"⟩ "s" none "boom" rfl rfl,
   C3_post_flag_failures_one_error_event.2 ⟨true, .netError "boom"⟩ "d" none "boom" rfl rfl⟩

theorem recGet_recSet_self (rs : List (String × String)) (k v : String) :
    recGet (recSet rs k v) k = some v := by
  induction rs with
  | nil => simp [recSet, recGet]
  | cons hd tl ih =>
    obtain ⟨k', v'⟩ := hd
    by_cases h : k' = k <;> simp [recSet, recGet, h, ih]

theorem recGet_recSet_ne (rs : List (String × String)) (k k' v : String) (h : k' ≠ k) :
    recGet (recSet rs k' v) k = recGet rs k := by
  induction rs with
  | nil => simp [recSet, recGet, h]
  | cons hd tl ih =>
    obtain ⟨k0, v0⟩ := hd
    by_cases h0 : k0 = k' <;> by_cases h1 : k0 = k <;>
      simp_all [recSet, recGet]

theorem generateSection_result_ctrl_indep (env : GenEnv) (st : String) (c : Option Unit) :
    (generateSection env st c).result = (generateSection env st none).result := by
  obtain ⟨e, f⟩ := env
  cases e
  · simp [generateSection]
  · rfl

theorem gms_preserves (envOf : String → GenEnv) (sections : List (String × SectionTemplate))
    (acc : List (String × String)) (c : Option Unit) (st : String)
    (h : st ∉ sections.map Prod.fst) :
    recGet (generateMultipleSections envOf sections acc c).1 st = recGet acc st := by
  induction sections generalizing acc c with
  | nil => rfl
  | cons hd tl ih =>
    obtain ⟨st', t'⟩ := hd
    simp only [List.map_cons, List.mem_cons, not_or] at h
    rw [generateMultipleSections, ih _ _ h.2, recGet_recSet_ne _ _ _ _ (Ne.symm h.1)]

theorem gms_isSome (envOf : String → GenEnv) (sections : List (String × SectionTemplate))
    (acc : List (String × String)) (c : Option Unit) (st : String)
    (h : st ∈ sections.map Prod.fst ∨ (recGet acc st).isSome = true) :
    (recGet (generateMultipleSections envOf sections acc c).1 st).isSome = true := by
  induction sections generalizing acc c with
  | nil =>
    rcases h with h | h
    · simp at h
    · exact h
  | cons hd tl ih =>
    obtain ⟨st', t'⟩ := hd
    rw [generateMultipleSections]
    by_cases hs : st' = st
    · subst hs
      exact ih _ _ (Or.inr (by rw [recGet_recSet_self]; rfl))
    · rcases h with h | h
      · simp only [List.map_cons, List.mem_cons] at h
        rcases h with h | h
        · exact absurd h.symm hs
        · exact ih _ _ (Or.inl h)
      · exact ih _ _ (Or.inr (by rwa [recGet_recSet_ne _ _ _ _ hs]))

theorem gms_value (envOf : String → GenEnv) (sections : List (String × SectionTemplate))
    (acc : List (String × String)) (c : Option Unit) (st : String) (t : SectionTemplate)
    (hnd : (sections.map Prod.fst).Nodup) (hmem : (st, t) ∈ sections) :
    recGet (generateMultipleSections envOf sections acc c).1 st
      = some (sectionResultText (generateSection (envOf st) st none).result) := by
  induction sections generalizing acc c with
  | nil => simp at hmem
  | cons hd tl ih =>
    obtain ⟨st', t'⟩ := hd
    simp only [List.map_cons, List.nodup_cons] at hnd
    rcases List.mem_cons.mp hmem with h | h
    · obtain ⟨h1, h2⟩ := Prod.mk.injEq .. ▸ h
      subst h1
      rw [generateMultipleSections, gms_preserves _ _ _ _ _ hnd.1, recGet_recSet_self,
        generateSection_result_ctrl_indep]
    · rw [generateMultipleSections]
      exact ih _ _ hnd.2 h

/-- C4: the batch orchestrator's result has an entry for every input section
id, and (for duplicate-free section ids) a section whose generation fails
contributes the placeholder string `Error generating content: <message>` in
its slot while every other section's slot holds its own call's outcome —
one failure never aborts the batch. -/
theorem C4_batch_failure_isolation :
    (∀ (envOf : String → GenEnv) (sections : List (String × SectionTemplate)) (st : String),
        st ∈ sections.map Prod.fst →
        (recGet (generateMultipleSections envOf sections [] none).1 st).isSome = true) ∧
    (∀ (envOf : String → GenEnv) (sections : List (String × SectionTemplate)),
        (sections.map Prod.fst).Nodup →
        ∀ (st : String) (t : SectionTemplate), (st, t) ∈ sections →
        recGet (generateMultipleSections envOf sections [] none).1 st
          = some (sectionResultText (generateSection (envOf st) st none).result)) :=
  ⟨fun envOf sections st h => gms_isSome envOf sections [] none st (Or.inl h),
   fun envOf sections hnd st t hmem => gms_value envOf sections [] none st t hnd hmem⟩

/-- C4 witness: a two-section batch whose second section fails (feature flag
off for it), instantiating both halves of the batch-isolation theorem. -/
theorem C4_witness :
    (recGet (generateMultipleSections
        (fun st => if st = "b" then ⟨false, .netError "x"⟩
                   else ⟨true, .resp true 200 "OK" (some [doneFrame])⟩)
        [("a", ⟨"a", "A", "d", "p", none⟩), ("b", ⟨"b", "B", "d", "p", none⟩)] [] none).1
        "a").isSome = true ∧
    recGet (generateMultipleSections
        (fun st => if st = "b" then ⟨false, .netError "x"⟩
                   else ⟨true, .resp true 200 "OK" (some [doneFrame])⟩)
        [("a", ⟨"a", "A", "d", "p", none⟩), ("b", ⟨"b", "B", "d", "p", none⟩)] [] none).1
        "b"
      = some (sectionResultText (generateSection
          ((fun st => if st = "b" then ⟨false, .netError "x"⟩
                      else ⟨true, .resp true 200 "OK" (some [doneFrame])⟩) "b") "b" none).result) :=
  ⟨C4_batch_failure_isolation.1
      (fun st => if st = "b" then ⟨false, .netError "x"⟩
                 else ⟨true, .resp true 200 "OK" (some [doneFrame])⟩)
      [("a", ⟨"a", "A", "d", "p", none⟩), ("b", ⟨"b", "B", "d", "p", none⟩)] "a" (by simp),
   C4_batch_failure_isolation.2
      (fun st => if st = "b" then ⟨false, .netError "x"⟩
                 else ⟨true, .resp true 200 "OK" (some [doneFrame])⟩)
      [("a", ⟨"a", "A", "d", "p", none⟩), ("b", ⟨"b", "B", "d", "p", none⟩)] (by decide)
      "b" ⟨"b", "B", "d", "p", none⟩ (by simp)⟩

/-- C5: refutation of the claim that `analyzeDocument` validates the document
content before issuing the network call.  The empty document is invalid per
`validateDocumentContent`, yet the call issues the network request and even
resolves successfully: the method never invokes the validation predicate
(only UI callers do). -/
theorem C5_counterexample :
    (validateDocumentContent "").isValid = false ∧
    exceptIsOk (analyzeDocument ⟨true, .resp true 200 "OK" (some okAnalysisReply)⟩
        "" none).result = true ∧
    AnEvent.fetchReq ∈ (analyzeDocument ⟨true, .resp true 200 "OK" (some okAnalysisReply)⟩
        "" none).events :=
  ⟨by decide, rfl, by decide⟩

/-- C5 (amended): `validateDocumentContent` does classify empty/whitespace
content and content trimming to fewer than 50 characters as invalid and all
longer content as valid, but `analyzeDocument` never consults it: whenever
the feature flag is on, the call issues its network request regardless of
the document content (validation is left to the callers that the predicate
is exposed to). -/
theorem C5_validate_exposed_but_not_called :
    (∀ s : String, (jsTrimData s).length = 0 →
        validateDocumentContent s = ⟨false, some "Document content is empty"⟩) ∧
    (∀ s : String, 0 < (jsTrimData s).length → (jsTrimData s).length < 50 →
        validateDocumentContent s
          = ⟨false, some "Document content is too short for meaningful analysis"⟩) ∧
    (∀ s : String, 50 ≤ (jsTrimData s).length → validateDocumentContent s = ⟨true, none⟩) ∧
    (∀ (env : AnEnv) (doc : String) (c : Option Unit), env.enableAIGeneration = true →
        AnEvent.fetchReq ∈ (analyzeDocument env doc c).events) := by
  refine ⟨?_, ?_, ?_, ?_⟩
  · intro s h
    simp [validateDocumentContent, h]
  · intro s h1 h2
    rw [validateDocumentContent, if_neg, if_pos h2]
    rintro (rfl | h)
    · revert h1
      decide
    · omega
  · intro s h
    rw [validateDocumentContent, if_neg, if_neg (by omega)]
    rintro (rfl | hz)
    · revert h
      decide
    · omega
  · rintro ⟨e, f⟩ doc c he
    cases he
    cases f with
    | netError m => simp [analyzeDocument]
    | resp ok status stext content =>
      cases ok with
      | false => simp [analyzeDocument]
      | true =>
        cases content with
        | none => simp [analyzeDocument]
        | some s =>
          by_cases hs : s = ""
          · simp [analyzeDocument, hs]
          · cases hex : extractJson s with
            | none => simp [analyzeDocument, hs, hex]
            | some jstr =>
              cases hjp : jsonParse jstr with
              | error pm => simp [analyzeDocument, hs, hex, hjp]
              | ok j => simp [analyzeDocument, hs, hex, hjp]

/-- C5 witness: concrete instantiations of all four parts of the amended
validation theorem. -/
theorem C5_witness :
    validateDocumentContent "  " = ⟨false, some "Document content is empty"⟩ ∧
    validateDocumentContent "abc"
      = ⟨false, some "Document content is too short for meaningful analysis"⟩ ∧
    validateDocumentContent "xxxxxxxxxxxxxxxxxxxxxxxxxxxxxxxxxxxxxxxxxxxxxxxxxxxxxxxxxxxx"
      = ⟨true, none⟩ ∧
    AnEvent.fetchReq ∈ (analyzeDocument ⟨true, .netError "down"⟩ "anything" none).events :=
  ⟨C5_validate_exposed_but_not_called.1 "  " (by decide),
   C5_validate_exposed_but_not_called.2.1 "abc" (by decide) (by decide),
   C5_validate_exposed_but_not_called.2.2.1
     "xxxxxxxxxxxxxxxxxxxxxxxxxxxxxxxxxxxxxxxxxxxxxxxxxxxxxxxxxxxx" (by decide),
   C5_validate_exposed_but_not_called.2.2.2 ⟨true, .netError "down"⟩ "anything" none rfl⟩

theorem charIdx_eq_none (c : Char) (l : List Char) (h : c ∉ l) : charIdx c l = none := by
  induction l with
  | nil => rfl
  | cons x xs ih =>
    simp only [List.mem_cons, not_or] at h
    have hxc : ¬ x = c := fun hx => h.1 hx.symm
    simp [charIdx, hxc, ih h.2]

theorem charIdx_append_not_mem (c : Char) (l1 l2 : List Char) (h : c ∉ l1) :
    charIdx c (l1 ++ l2) = (charIdx c l2).map (· + l1.length) := by
  induction l1 with
  | nil =>
    simp only [List.nil_append, List.length_nil]
    cases h2 : charIdx c l2 <;> simp [h2]
  | cons x xs ih =>
    simp only [List.mem_cons, not_or] at h
    have hxc : ¬ x = c := fun hx => h.1 hx.symm
    have ih' := ih h.2
    rw [List.cons_append]
    simp only [charIdx, if_neg hxc]
    rw [ih']
    cases charIdx c l2 with
    | none => rfl
    | some v =>
      simp only [Option.map_some', Option.some.injEq, List.length_cons]
      omega

theorem charIdx_cons_self (c : Char) (xs : List Char) : charIdx c (c :: xs) = some 0 := by
  simp [charIdx]

/-- C6: refutation of the claim that every prose-wrapped reply parses like its
embedded object alone.  The reply `Result: {"a":1} extra}` wraps the single
JSON object `{"a":1}`, which parses fine on its own, but the greedy
first-to-last-brace extraction grabs `{"a":1} extra}` and the call fails
with a parse error. -/
theorem C6_counterexample :
    extractJson replyC6 = some "\x7b\"a\":1\x7d extra\x7d" ∧
    exceptIsOk (jsonParse embeddedC6) = true ∧
    exceptIsOk (analyzeDocument ⟨true, .resp true 200 "OK" (some replyC6)⟩ "doc" none).result
      = false :=
  ⟨by decide, rfl, rfl⟩

/-- C6 (amended): the extraction runs from the reply's first `{` to its last
`}`.  When the leading prose contains no `{` and the trailing prose contains
no `}`, the match is exactly the embedded object, so parsing the reply's
extract equals parsing the embedded object alone; prose containing braces
can break the extraction, as the counterexample shows.  And the original
claim's second half holds in full: a reply whose extraction finds no match
fails with the extraction error, and a reply whose extracted substring does
not parse fails with that parse error — so every reply containing no
parsable JSON object makes the call fail with a parse error. -/
theorem C6_brace_extraction :
    (∀ (p1 o p2 : String),
        '{' ∉ p1.data → '}' ∉ p2.data →
        o.data.head? = some '{' → o.data.getLast? = some '}' → 2 ≤ o.data.length →
        extractJson (p1 ++ o ++ p2) = some o ∧
        (extractJson (p1 ++ o ++ p2)).map jsonParse = some (jsonParse o)) ∧
    (∀ (doc s : String) (c : Option Unit) (status : Nat) (stext : String),
        s ≠ "" → extractJson s = none →
        (analyzeDocument ⟨true, .resp true status stext (some s)⟩ doc c).result
          = .error "Document analysis failed: Invalid JSON response from analysis") ∧
    (∀ (doc s jstr pm : String) (c : Option Unit) (status : Nat) (stext : String),
        s ≠ "" → extractJson s = some jstr → jsonParse jstr = .error pm →
        (analyzeDocument ⟨true, .resp true status stext (some s)⟩ doc c).result
          = .error ("Document analysis failed: " ++ pm)) := by
  constructor
  · intro p1 o p2 h1 h2 hh hl h2le
    have hdata : (p1 ++ o ++ p2).data = p1.data ++ (o.data ++ p2.data) := by
      rw [String.data_append, String.data_append, List.append_assoc]
    obtain ⟨bt, hb⟩ : ∃ t, o.data = '{' :: t := by
      cases hbd : o.data with
      | nil => rw [hbd] at hh; simp at hh
      | cons x t =>
        rw [hbd] at hh
        simp only [List.head?_cons, Option.some.injEq] at hh
        exact ⟨t, by rw [hh]⟩
    obtain ⟨rt, hr⟩ : ∃ t, o.data.reverse = '}' :: t := by
      cases hbr : o.data.reverse with
      | nil =>
        have hnil : o.data = [] := by simpa using congrArg List.reverse hbr
        rw [hnil] at h2le
        simp at h2le
      | cons y t =>
        have hy : o.data.reverse.head? = some '}' := by rw [List.head?_reverse]; exact hl
        rw [hbr] at hy
        simp only [List.head?_cons, Option.some.injEq] at hy
        subst hy
        exact ⟨t, rfl⟩
    have hfst : charIdx '{' (p1 ++ o ++ p2).data = some p1.data.length := by
      rw [hdata, charIdx_append_not_mem _ _ _ h1, hb]
      simp [charIdx]
    have hrev : (p1 ++ o ++ p2).data.reverse
        = p2.data.reverse ++ (o.data.reverse ++ p1.data.reverse) := by
      rw [hdata, List.reverse_append, List.reverse_append, List.append_assoc]
    have hlst : charIdx '}' (p1 ++ o ++ p2).data.reverse = some p2.data.length := by
      rw [hrev, charIdx_append_not_mem _ _ _ (by simpa using h2), hr]
      simp [charIdx]
    have hlen : (p1 ++ o ++ p2).data.length
        = p1.data.length + o.data.length + p2.data.length := by
      rw [hdata]
      simp only [List.length_append]
      omega
    have hij : p1.data.length < (p1 ++ o ++ p2).data.length - 1 - p2.data.length := by
      omega
    have hmain : extractJson (p1 ++ o ++ p2) = some o := by
      unfold extractJson
      rw [hfst, hlst, Option.map_some']
      dsimp only
      rw [if_pos hij]
      have hdrop : (p1 ++ o ++ p2).data.drop p1.data.length = o.data ++ p2.data := by
        rw [hdata, List.drop_left]
      have htakeLen : (p1 ++ o ++ p2).data.length - 1 - p2.data.length
          - p1.data.length + 1 = o.data.length := by
        omega
      rw [hdrop, htakeLen, List.take_left]
    exact ⟨hmain, by rw [hmain]; rfl⟩
  · constructor
    · intro doc s c status stext hs hex
      simp [analyzeDocument, hs, hex]
    · intro doc s jstr pm c status stext hs hex hjp
      simp [analyzeDocument, hs, hex, hjp]

/-- C6 witness: a reply with brace-free prose around the object; a reply with
no JSON object at all; and a reply whose greedy extract fails to parse. -/
theorem C6_witness :
    (extractJson ("Here is the analysis: " ++ "\x7b\"a\":1\x7d" ++ " Hope this helps.")
        = some "\x7b\"a\":1\x7d" ∧
     (extractJson ("Here is the analysis: " ++ "\x7b\"a\":1\x7d" ++ " Hope this helps.")).map
        jsonParse = some (jsonParse "\x7b\"a\":1\x7d")) ∧
    (analyzeDocument ⟨true, .resp true 200 "OK" (some "no json here")⟩ "doc" none).result
      = .error "Document analysis failed: Invalid JSON response from analysis" ∧
    (analyzeDocument ⟨true, .resp true 200 "OK" (some "a\x7bb\x7dc")⟩ "doc" none).result
      = .error ("Document analysis failed: " ++ "Unexpected token in JSON") :=
  ⟨C6_brace_extraction.1 "Here is the analysis: " "\x7b\"a\":1\x7d" " Hope this helps."
      (by decide) (by decide) (by decide) (by decide) (by decide),
   C6_brace_extraction.2.1 "doc" "no json here" none 200 "OK" (by decide) (by decide),
   C6_brace_extraction.2.2 "doc" "a\x7bb\x7dc" "\x7bb\x7d" "Unexpected token in JSON"
      none 200 "OK" (by decide) (by decide) rfl⟩

/-- C7: `processAnalysis` is structurally total — its result type makes every
field and sub-field present — and every individual leaf missing from the
parsed object (whether its parent component is absent or present without
that sub-field) is defaulted: collections to an empty array (in particular a
missing `stakeholders` becomes the empty sequence), strings to
`Not specified`, and confidence numbers to `0.5`.  The hypotheses are the
optional chains the source reads, so they hold both when the top-level
component is missing and when it is present but lacks the sub-field. -/
theorem C7_process_analysis_defaults :
    ∀ j : Json,
      ((jLookup j "stakeholders" = none → (processAnalysis j).stakeholders = .arr []) ∧
       (jLookup j "redFlags" = none → (processAnalysis j).redFlags = .arr []) ∧
       (jLookup j "deadlines" = none → (processAnalysis j).deadlines = .arr [])) ∧
      ((chainKK j "criticalRequirementsMatrix" "mandatory" = none →
          (processAnalysis j).criticalRequirementsMatrix.mandatory = .arr []) ∧
       (chainKK j "criticalRequirementsMatrix" "desired" = none →
          (processAnalysis j).criticalRequirementsMatrix.desired = .arr []) ∧
       (chainKK j "criticalRequirementsMatrix" "optional" = none →
          (processAnalysis j).criticalRequirementsMatrix.«optional» = .arr []) ∧
       (chainKK j "criticalRequirementsMatrix" "hidden" = none →
          (processAnalysis j).criticalRequirementsMatrix.hidden = .arr [])) ∧
      ((chainKK j "evaluationCriteria" "scoringMethodology" = none →
          (processAnalysis j).evaluationCriteria.scoringMethodology = .str "Not specified") ∧
       (chainKK j "evaluationCriteria" "criteria" = none →
          (processAnalysis j).evaluationCriteria.criteria = .arr []) ∧
       (chainKK j "evaluationCriteria" "budgetIndicators" = none →
          (processAnalysis j).evaluationCriteria.budgetIndicators = .str "Not specified") ∧
       (chainKK j "evaluationCriteria" "riskFactors" = none →
          (processAnalysis j).evaluationCriteria.riskFactors = .arr [])) ∧
      ((chainKK j "strategicIntelligence" "incumbentAdvantages" = none →
          (processAnalysis j).strategicIntelligence.incumbentAdvantages
            = .str "Not specified") ∧
       (chainKK j "strategicIntelligence" "politicalLandscape" = none →
          (processAnalysis j).strategicIntelligence.politicalLandscape
            = .str "Not specified") ∧
       (chainKK j "strategicIntelligence" "timelinePressures" = none →
          (processAnalysis j).strategicIntelligence.timelinePressures
            = .str "Not specified") ∧
       (chainKK j "strategicIntelligence" "competitiveOpportunities" = none →
          (processAnalysis j).strategicIntelligence.competitiveOpportunities
            = .str "Not specified") ∧
       (chainKK j "strategicIntelligence" "confidence" = none →
          (processAnalysis j).strategicIntelligence.confidence = .num (1 / 2))) ∧
      ((chainKK j "winThemes" "primaryValueDrivers" = none →
          (processAnalysis j).winThemes.primaryValueDrivers = .arr []) ∧
       (chainKK j "winThemes" "painPoints" = none →
          (processAnalysis j).winThemes.painPoints = .arr []) ∧
       (chainKK j "winThemes" "keyDifferentiators" = none →
          (processAnalysis j).winThemes.keyDifferentiators = .arr []) ∧
       (chainKK j "winThemes" "requiredProofPoints" = none →
          (processAnalysis j).winThemes.requiredProofPoints = .arr []) ∧
       (chainKK j "winThemes" "confidence" = none →
          (processAnalysis j).winThemes.confidence = .num (1 / 2))) := by
  intro j
  refine ⟨⟨?_, ?_, ?_⟩, ⟨?_, ?_, ?_, ?_⟩, ⟨?_, ?_, ?_, ?_⟩,
    ⟨?_, ?_, ?_, ?_, ?_⟩, ⟨?_, ?_, ?_, ?_, ?_⟩⟩ <;> intro h <;>
    simp [processAnalysis, jsOr, h]

/-- C7 witness: a parsed object whose `winThemes` is present but lacks
`painPoints`, whose `strategicIntelligence` is present but lacks
`confidence`, and whose `stakeholders` is missing altogether — all three
leaves come back defaulted. -/
theorem C7_witness :
    (processAnalysis (.obj
        [("winThemes", .obj [("confidence", .num (9 / 10))]),
         ("strategicIntelligence", .obj
            [("incumbentAdvantages", .str "vendor lock-in")])])).winThemes.painPoints
      = .arr [] ∧
    (processAnalysis (.obj
        [("winThemes", .obj [("confidence", .num (9 / 10))]),
         ("strategicIntelligence", .obj
            [("incumbentAdvantages",
              .str "vendor lock-in")])])).strategicIntelligence.confidence
      = .num (1 / 2) ∧
    (processAnalysis (.obj
        [("winThemes", .obj [("confidence", .num (9 / 10))]),
         ("strategicIntelligence", .obj
            [("incumbentAdvantages", .str "vendor lock-in")])])).stakeholders
      = .arr [] :=
  ⟨(C7_process_analysis_defaults (.obj
      [("winThemes", .obj [("confidence", .num (9 / 10))]),
       ("strategicIntelligence", .obj
          [("incumbentAdvantages", .str "vendor lock-in")])])).2.2.2.2.2.1 rfl,
   (C7_process_analysis_defaults (.obj
      [("winThemes", .obj [("confidence", .num (9 / 10))]),
       ("strategicIntelligence", .obj
          [("incumbentAdvantages", .str "vendor lock-in")])])).2.2.2.1.2.2.2.2 rfl,
   (C7_process_analysis_defaults (.obj
      [("winThemes", .obj [("confidence", .num (9 / 10))]),
       ("strategicIntelligence", .obj
          [("incumbentAdvantages", .str "vendor lock-in")])])).1.1 rfl⟩

theorem containsSub_of_prefix (p l : List Char) (hp : p ≠ []) (h : p <+: l) :
    containsSub p l = true := by
  cases l with
  | nil => exact absurd (List.prefix_nil.mp h) hp
  | cons x xs => simp [containsSub, List.isPrefixOf_iff_prefix, h]

theorem containsSub_decomp (p a b : List Char) (hp : p ≠ [])
    (h : containsSub p (a ++ b) = true) :
    containsSub p a = true ∨ containsSub p b = true ∨
      ∃ k, 0 < k ∧ k < p.length ∧ p.take k <:+ a ∧ p.drop k <+: b := by
  induction a with
  | nil =>
    rw [List.nil_append] at h
    exact Or.inr (Or.inl h)
  | cons x a' ih =>
    rw [List.cons_append] at h
    simp only [containsSub, Bool.or_eq_true] at h
    rcases h with h | h
    · have hpre : p <+: (x :: a') ++ b := by
        rw [List.cons_append]
        exact List.isPrefixOf_iff_prefix.mp h
      have hp_eq : p = ((x :: a') ++ b).take p.length := List.prefix_iff_eq_take.mp hpre
      by_cases hlen : p.length ≤ (x :: a').length
      · left
        apply containsSub_of_prefix p _ hp
        rw [List.take_append_eq_append_take, Nat.sub_eq_zero_of_le hlen,
          List.take_zero, List.append_nil] at hp_eq
        rw [hp_eq]
        exact List.take_prefix _ _
      · push_neg at hlen
        obtain ⟨t, ht⟩ := hpre
        have htk : p.take (x :: a').length = x :: a' :=
          calc p.take (x :: a').length
              = (p ++ t).take (x :: a').length := by
                rw [List.take_append_eq_append_take,
                  Nat.sub_eq_zero_of_le (le_of_lt hlen), List.take_zero, List.append_nil]
            _ = ((x :: a') ++ b).take (x :: a').length := by rw [ht]
            _ = x :: a' := List.take_left _ _
        have hps : p = (x :: a') ++ p.drop (x :: a').length := by
          conv_lhs => rw [← List.take_append_drop (x :: a').length p]
          rw [htk]
        have hcat : (x :: a') ++ (p.drop (x :: a').length ++ t) = (x :: a') ++ b := by
          rw [← List.append_assoc, ← hps]
          exact ht
        right; right
        refine ⟨(x :: a').length, by simp, hlen, ?_, ?_⟩
        · rw [htk]
        · exact ⟨t, List.append_cancel_left hcat⟩
    · rcases ih h with h' | h' | ⟨k, hk0, hkl, hsuf, hpre'⟩
      · left; simp [containsSub, h']
      · right; left; exact h'
      · right; right; exact ⟨k, hk0, hkl, hsuf.trans (List.suffix_cons x a'), hpre'⟩

theorem containsSub_eq_false_of_head (p a : List Char) (c : Char)
    (hh : p.head? = some c) (hca : c ∉ a) : containsSub p a = false := by
  obtain ⟨p', rfl⟩ : ∃ p', p = c :: p' := by
    cases p with
    | nil => simp at hh
    | cons y ys =>
      simp only [List.head?_cons, Option.some.injEq] at hh
      exact ⟨ys, by rw [hh]⟩
  induction a with
  | nil => rfl
  | cons x xs ih =>
    simp only [List.mem_cons, not_or] at hca
    simp only [containsSub, Bool.or_eq_false_iff]
    constructor
    · simp only [List.isPrefixOf]
      rw [Bool.and_eq_false_iff]
      left
      exact beq_eq_false_iff_ne.mpr (fun hcx => hca.1 hcx)
    · exact ih hca.2

theorem containsSub_append_char (p a b : List Char) (c : Char)
    (hh : p.head? = some c) (hca : c ∉ a) (hb : containsSub p b = false) :
    containsSub p (a ++ b) = false := by
  have hp : p ≠ [] := by cases p <;> simp_all
  cases hv : containsSub p (a ++ b) with
  | false => rfl
  | true =>
    exfalso
    rcases containsSub_decomp p a b hp hv with h | h | ⟨k, hk0, _, hsuf, _⟩
    · rw [containsSub_eq_false_of_head p a c hh hca] at h
      exact Bool.false_ne_true h
    · rw [hb] at h
      exact Bool.false_ne_true h
    · obtain ⟨p', rfl⟩ : ∃ p', p = c :: p' := by
        cases p with
        | nil => simp at hh
        | cons y ys =>
          simp only [List.head?_cons, Option.some.injEq] at hh
          exact ⟨ys, by rw [hh]⟩
      have hcmem : c ∈ (c :: p').take k := by
        cases k with
        | zero => omega
        | succ k' => simp [List.take_succ_cons]
      exact hca (hsuf.subset hcmem)

theorem getLast?_of_suffix (l1 l2 : List Char) (h : l1 <:+ l2) (hne : l1 ≠ []) :
    l2.getLast? = l1.getLast? := by
  obtain ⟨t, rfl⟩ := h
  exact List.getLast?_append_of_ne_nil t hne

theorem head?_of_prefix (l1 l2 : List Char) (h : l1 <+: l2) (hne : l1 ≠ []) :
    l2.head? = l1.head? := by
  obtain ⟨t, rfl⟩ := h
  cases l1 with
  | nil => exact absurd rfl hne
  | cons c cs => rfl

theorem containsSub_append_last_nl (p a b : List Char) (hp : p ≠ [])
    (hnl : '\n' ∉ p) (hlast : a.getLast? = some '\n')
    (ha : containsSub p a = false) (hb : containsSub p b = false) :
    containsSub p (a ++ b) = false := by
  cases hv : containsSub p (a ++ b) with
  | false => rfl
  | true =>
    exfalso
    rcases containsSub_decomp p a b hp hv with h | h | ⟨k, hk0, hkl, hsuf, _⟩
    · rw [ha] at h; exact Bool.false_ne_true h
    · rw [hb] at h; exact Bool.false_ne_true h
    · have htne : p.take k ≠ [] := by
        have : (p.take k).length = min k p.length := List.length_take k p
        intro hnil
        rw [hnil] at this
        simp at this
        omega
      have := getLast?_of_suffix _ _ hsuf htne
      rw [hlast] at this
      have hmem : '\n' ∈ p.take k := List.mem_of_mem_getLast? (by rw [← this]; rfl)
      exact hnl (List.take_subset k p hmem)

theorem containsSub_append_head_nl (p a b : List Char) (hp : p ≠ [])
    (hnl : '\n' ∉ p) (hhead : b.head? = some '\n')
    (ha : containsSub p a = false) (hb : containsSub p b = false) :
    containsSub p (a ++ b) = false := by
  cases hv : containsSub p (a ++ b) with
  | false => rfl
  | true =>
    exfalso
    rcases containsSub_decomp p a b hp hv with h | h | ⟨k, hk0, hkl, _, hpre⟩
    · rw [ha] at h; exact Bool.false_ne_true h
    · rw [hb] at h; exact Bool.false_ne_true h
    · have hdne : p.drop k ≠ [] := by
        have : (p.drop k).length = p.length - k := List.length_drop k p
        intro hnil
        rw [hnil] at this
        simp at this
        omega
      have := head?_of_prefix _ _ hpre hdne
      rw [hhead] at this
      have hmem : '\n' ∈ p.drop k := by
        cases hd : p.drop k with
        | nil => exact absurd hd hdne
        | cons y ys =>
          rw [hd] at this
          simp only [List.head?_cons, Option.some.injEq] at this
          rw [this]
          exact List.mem_cons_self _ _
      exact hnl (List.drop_subset k p hmem)

theorem containsTok_of_no_open (s tok : String)
    (hh : tok.data.head? = some '{') (h : '{' ∉ s.data) :
    containsTok s tok = false :=
  containsSub_eq_false_of_head tok.data s.data '{' hh h

theorem containsTok_append_char (s1 s2 tok : String)
    (hh : tok.data.head? = some '{') (hca : '{' ∉ s1.data)
    (hb : containsTok s2 tok = false) :
    containsTok (s1 ++ s2) tok = false := by
  unfold containsTok
  rw [String.data_append]
  exact containsSub_append_char tok.data s1.data s2.data '{' hh hca hb

theorem containsTok_append_last_nl (s1 s2 tok : String)
    (hh : tok.data.head? = some '{') (hnl : '\n' ∉ tok.data)
    (hlast : s1.data.getLast? = some '\n')
    (ha : containsTok s1 tok = false) (hb : containsTok s2 tok = false) :
    containsTok (s1 ++ s2) tok = false := by
  have hp : tok.data ≠ [] := by
    intro hn
    rw [hn] at hh
    simp at hh
  unfold containsTok
  rw [String.data_append]
  exact containsSub_append_last_nl tok.data s1.data s2.data hp hnl hlast ha hb

theorem containsTok_append_head_nl (s1 s2 tok : String)
    (hh : tok.data.head? = some '{') (hnl : '\n' ∉ tok.data)
    (hhead : s2.data.head? = some '\n')
    (ha : containsTok s1 tok = false) (hb : containsTok s2 tok = false) :
    containsTok (s1 ++ s2) tok = false := by
  have hp : tok.data ≠ [] := by
    intro hn
    rw [hn] at hh
    simp at hh
  unfold containsTok
  rw [String.data_append]
  exact containsSub_append_head_nl tok.data s1.data s2.data hp hnl hhead ha hb

theorem containsTok_block (a sep c tok : String)
    (hh : tok.data.head? = some '{') (hnl : '\n' ∉ tok.data)
    (hsep1 : sep.data.head? = some '\n') (hsep2 : sep.data.getLast? = some '\n')
    (hsepc : '{' ∉ sep.data)
    (ha : containsTok a tok = false) (hc : containsTok c tok = false) :
    containsTok (a ++ sep ++ c) tok = false := by
  have hsep : containsTok sep tok = false := containsTok_of_no_open sep tok hh hsepc
  have h1 : containsTok (a ++ sep) tok = false :=
    containsTok_append_head_nl a sep tok hh hnl hsep1 ha hsep
  have h2 : (a ++ sep).data.getLast? = some '\n' := by
    rw [String.data_append]
    rw [List.getLast?_append_of_ne_nil _ (by cases hs : sep.data <;> simp_all)]
    exact hsep2
  exact containsTok_append_last_nl (a ++ sep) c tok hh hnl h2 h1 hc

theorem containsTok_joinDash (rs : List String) (tok : String)
    (hh : tok.data.head? = some '{') (hnl : '\n' ∉ tok.data)
    (hall : ∀ r ∈ rs, containsTok r tok = false) :
    containsTok (joinDash rs) tok = false := by
  induction rs with
  | nil => exact containsTok_of_no_open "" tok hh (by decide)
  | cons r rest ih =>
    cases rest with
    | nil =>
      exact containsTok_append_char "- " r tok hh (by decide)
        (hall r (List.mem_cons_self r []))
    | cons r2 rest' =>
      have ha : containsTok ("- " ++ r) tok = false :=
        containsTok_append_char "- " r tok hh (by decide)
          (hall r (List.mem_cons_self _ _))
      have hx : containsTok ("- " ++ r ++ "\n") tok = false :=
        containsTok_append_head_nl ("- " ++ r) "\n" tok hh hnl (by decide) ha
          (containsTok_of_no_open "\n" tok hh (by decide))
      have hlastx : ("- " ++ r ++ "\n").data.getLast? = some '\n' := by
        rw [String.data_append]
        rw [List.getLast?_append_of_ne_nil _ (by decide)]
        rfl
      exact containsTok_append_last_nl ("- " ++ r ++ "\n") (joinDash (r2 :: rest')) tok
        hh hnl hlastx hx (ih (fun x hx' => hall x (List.mem_cons_of_mem r hx')))

theorem containsTok_step (cond : Prop) [Decidable cond] (s sep c tok : String)
    (hh : tok.data.head? = some '{') (hnl : '\n' ∉ tok.data)
    (hsep1 : sep.data.head? = some '\n') (hsep2 : sep.data.getLast? = some '\n')
    (hsepc : '{' ∉ sep.data)
    (hs : containsTok s tok = false) (hc : containsTok c tok = false) :
    containsTok (if cond then s ++ sep ++ c else s) tok = false := by
  by_cases h : cond
  · rw [if_pos h]
    exact containsTok_block s sep c tok hh hnl hsep1 hsep2 hsepc hs hc
  · rw [if_neg h]
    exact hs

theorem buildPrompt_no_token (key : String) (ctx : GenerationContext) (t : SectionTemplate)
    (rel : String → String → String) (tok : String)
    (hh : tok.data.head? = some '{') (hnl : '\n' ∉ tok.data)
    (hcore : containsTok
      (replaceFirstS (replaceFirstS t.promptTemplate "\x7bsectionType\x7d" key)
        "\x7btemplateName\x7d" t.name) tok = false)
    (hctx : ctxTokenFree ctx tok)
    (hrel : ∀ a b, containsTok (rel a b) tok = false) :
    containsTok (buildPrompt key ctx t rel) tok = false := by
  obtain ⟨hrfp, hcp, hreq, hcon, hta⟩ := hctx
  have hjr : containsTok (joinDash ctx.requirements) tok = false :=
    containsTok_joinDash _ tok hh hnl hreq
  have hjc : containsTok (joinDash ctx.constraints) tok = false :=
    containsTok_joinDash _ tok hh hnl hcon
  unfold buildPrompt
  dsimp only
  exact containsTok_step _ _ _ _ _ hh hnl (by decide) (by decide) (by decide)
    (containsTok_step _ _ _ _ _ hh hnl (by decide) (by decide) (by decide)
      (containsTok_step _ _ _ _ _ hh hnl (by decide) (by decide) (by decide)
        (containsTok_step _ _ _ _ _ hh hnl (by decide) (by decide) (by decide)
          (containsTok_step _ _ _ _ _ hh hnl (by decide) (by decide) (by decide)
            (containsTok_step _ _ _ _ _ hh hnl (by decide) (by decide) (by decide)
              hcore hrfp)
            hcp)
          hjr)
        hjc)
      hta)
    (hrel _ _)

set_option maxHeartbeats 2000000 in
set_option maxRecDepth 8000 in
/-- C8: for every supported section identifier and its template, and every
generation context and relevant-content lookup whose own payloads do not
contain the literal placeholder tokens, the built prompt contains no
remaining `{sectionType}` or `{templateName}` token — each template uses
each placeholder at most once, so the first-occurrence-only substitution
eliminates them all. -/
theorem C8_placeholders_eliminated :
    ∀ (key : String) (t : SectionTemplate), (key, t) ∈ getSectionTemplates →
    ∀ (ctx : GenerationContext) (rel : String → String → String),
    ctxTokenFree ctx tokST → ctxTokenFree ctx tokTN →
    (∀ a b, containsTok (rel a b) tokST = false) →
    (∀ a b, containsTok (rel a b) tokTN = false) →
    containsTok (buildPrompt key ctx t rel) tokST = false ∧
    containsTok (buildPrompt key ctx t rel) tokTN = false := by
  intro key t hmem ctx rel hst htn hrs hrt
  simp only [getSectionTemplates, List.mem_cons, List.not_mem_nil, or_false] at hmem
  rcases hmem with h | h | h | h | h | h | h | h <;>
    obtain ⟨rfl, rfl⟩ := Prod.mk.inj h <;>
    exact ⟨buildPrompt_no_token _ _ _ _ _ (by decide) (by decide) (by decide) hst hrs,
           buildPrompt_no_token _ _ _ _ _ (by decide) (by decide) (by decide) htn hrt⟩

set_option maxHeartbeats 1000000 in
set_option maxRecDepth 8000 in
/-- C8 witness: the compliance section with an empty context and an empty
relevant-content lookup. -/
theorem C8_witness :
    containsTok (buildPrompt "compliance" ⟨"", "", [], [], ""⟩
      ⟨"compliance", "Compliance & Certifications",
       "Regulatory compliance and quality certifications",
       "Detail all relevant certifications, compliance standards, and quality assurance processes.\n        Include specific certifications, audit results, and compliance frameworks that apply to this project.\n        Demonstrate commitment to quality, security, and regulatory requirements.",
       some 500⟩ (fun _ _ => "")) tokST = false ∧
    containsTok (buildPrompt "compliance" ⟨"", "", [], [], ""⟩
      ⟨"compliance", "Compliance & Certifications",
       "Regulatory compliance and quality certifications",
       "Detail all relevant certifications, compliance standards, and quality assurance processes.\n        Include specific certifications, audit results, and compliance frameworks that apply to this project.\n        Demonstrate commitment to quality, security, and regulatory requirements.",
       some 500⟩ (fun _ _ => "")) tokTN = false :=
  C8_placeholders_eliminated "compliance"
    ⟨"compliance", "Compliance & Certifications",
     "Regulatory compliance and quality certifications",
     "Detail all relevant certifications, compliance standards, and quality assurance processes.\n        Include specific certifications, audit results, and compliance frameworks that apply to this project.\n        Demonstrate commitment to quality, security, and regulatory requirements.",
     some 500⟩ (by decide) ⟨"", "", [], [], ""⟩ (fun _ _ => "")
    ⟨by decide, by decide, fun r hr => absurd hr (List.not_mem_nil r),
     fun r hr => absurd hr (List.not_mem_nil r), by decide⟩
    ⟨by decide, by decide, fun r hr => absurd hr (List.not_mem_nil r),
     fun r hr => absurd hr (List.not_mem_nil r), by decide⟩
    (fun _ _ => (by decide : containsTok "" tokST = false))
    (fun _ _ => (by decide : containsTok "" tokTN = false))

/-- C9: refutation of the claim that both services clear the cancellation
handle when a call completes or fails.  A successfully completed
`analyzeDocument` call leaves the handle set (there is no `finally`), and
`cancelAnalysis` aborts without resetting it either. -/
theorem C9_counterexample :
    (analyzeDocument ⟨true, .resp true 200 "OK" (some okAnalysisReply)⟩ "doc" none).ctrl
      = some () ∧
    exceptIsOk (analyzeDocument ⟨true, .resp true 200 "OK" (some okAnalysisReply)⟩
      "doc" none).result = true ∧
    cancelAnalysis (some ()) = some () :=
  ⟨rfl, rfl, rfl⟩

/-- C9 (amended): the Section Generator overwrites the handle on each call and
its `finally` always clears it; `cancelGeneration` also clears it.  The
Analysis Engine overwrites the handle on each call but never clears it: it
is still set after every completed or failed call, and `cancelAnalysis`
leaves the slot untouched. -/
theorem C9_ctrl_lifecycle :
    (∀ (env : GenEnv) (st : String) (c : Option Unit),
        env.enableAIGeneration = true → (generateSection env st c).ctrl = none) ∧
    (∀ (env : AnEnv) (doc : String) (c : Option Unit),
        env.enableAIGeneration = true → (analyzeDocument env doc c).ctrl = some ()) ∧
    (∀ c, cancelGeneration c = none) ∧
    (∀ c, cancelAnalysis c = c) := by
  refine ⟨?_, ?_, fun c => rfl, fun c => rfl⟩
  · rintro ⟨e, f⟩ st c he
    cases he
    cases f with
    | netError m => rfl
    | resp ok status stext body =>
      cases ok with
      | false => rfl
      | true => cases body with
        | none => rfl
        | some reads => rfl
  · rintro ⟨e, f⟩ doc c he
    cases he
    cases f with
    | netError m => rfl
    | resp ok status stext content =>
      cases ok with
      | false => rfl
      | true =>
        cases content with
        | none => rfl
        | some s =>
          by_cases hs : s = ""
          · simp [analyzeDocument, hs]
          · cases hex : extractJson s with
            | none => simp [analyzeDocument, hs, hex]
            | some jstr =>
              cases hjp : jsonParse jstr with
              | error pm => simp [analyzeDocument, hs, hex, hjp]
              | ok j => simp [analyzeDocument, hs, hex, hjp]

/-- C9 witness: concrete calls for all four parts of the lifecycle theorem. -/
theorem C9_witness :
    (generateSection ⟨true, .netError "x"⟩ "s" (some ())).ctrl = none ∧
    (analyzeDocument ⟨true, .netError "x"⟩ "d" none).ctrl = some () ∧
    cancelGeneration (some ()) = none ∧
    cancelAnalysis none = none :=
  ⟨C9_ctrl_lifecycle.1 ⟨true, .netError "x"⟩ "s" (some ()) rfl,
   C9_ctrl_lifecycle.2.1 ⟨true, .netError "x"⟩ "d" none rfl,
   C9_ctrl_lifecycle.2.2.1 (some ()),
   C9_ctrl_lifecycle.2.2.2 none⟩

theorem progEvents_append (l1 l2 : List GenEvent) :
    progEvents (l1 ++ l2) = progEvents l1 ++ progEvents l2 :=
  List.filterMap_append l1 l2 _

theorem processLines_no_completed (st : String) (lines : List (List Char))
    (acc : String) (cnt : Nat)
    (h : (processLines st lines acc cnt).done = false) :
    (progEvents (processLines st lines acc cnt).events).filter (hasStatus .completed)
      = [] := by
  induction lines generalizing acc cnt with
  | nil => rfl
  | cons line rest ih =>
    simp only [processLines] at h ⊢
    by_cases hd : "data: ".data.isPrefixOf line
    · simp only [if_pos hd] at h ⊢
      by_cases hdone : line.drop 6 = "[DONE]".data
      · simp only [if_pos hdone] at h
        exact absurd h (by simp)
      · simp only [if_neg hdone] at h ⊢
        cases hjp : jsonParse (String.mk (line.drop 6)) with
        | error m =>
          simp only [hjp] at h ⊢
          exact ih _ _ h
        | ok parsed =>
          simp only [hjp] at h ⊢
          cases hdelta : extractDelta parsed with
          | none =>
            simp only [hdelta] at h ⊢
            exact ih _ _ h
          | some cdelta =>
            simp only [hdelta] at h ⊢
            by_cases hne : cdelta = ""
            · simp only [if_pos hne] at h ⊢
              exact ih _ _ h
            · simp only [if_neg hne] at h ⊢
              simp only [progEvents, List.filterMap_cons] at h ⊢
              simp only [hasStatus, List.filter_cons]
              simp only [show ((⟨st, .generating,
                  progressOf (cnt + 1), some (acc ++ cdelta),
                  none⟩ : GenerationProgress).status == GStatus.completed) = false from rfl]
              simp only [Bool.false_eq_true, if_false]
              exact ih _ _ h
    · simp only [if_neg hd] at h ⊢
      exact ih _ _ h

theorem processReads_no_completed (st : String) (reads : List String)
    (acc : String) (cnt : Nat)
    (h : (processReads st reads acc cnt).done = false) :
    (progEvents (processReads st reads acc cnt).events).filter (hasStatus .completed)
      = [] := by
  induction reads generalizing acc cnt with
  | nil => rfl
  | cons r rest ih =>
    simp only [processReads] at h ⊢
    by_cases hd : (processLines st (splitNl r) acc cnt).done = true
    · simp only [if_pos hd] at h
      exact absurd h (by simp)
    · simp only [if_neg hd] at h ⊢
      rw [progEvents_append, List.filter_append,
        processLines_no_completed st (splitNl r) acc cnt (Bool.eq_false_iff.mpr hd),
        ih _ _ h]
      rfl

/-- C10: when the response stream ends without a `[DONE]` frame having been
decoded, `generateSection` resolves with the accumulated content but emits
no progress event with status `completed`: every progress event of the call
(the initial one included) has a different status. -/
theorem C10_stream_end_without_done :
    ∀ (st : String) (reads : List String) (status : Nat) (stext : String) (c : Option Unit),
    (processReads st reads "" 0).done = false →
    (generateSection ⟨true, .resp true status stext (some reads)⟩ st c).result
      = .ok (processReads st reads "" 0).content ∧
    (progEvents (generateSection ⟨true, .resp true status stext (some reads)⟩
        st c).events).filter (hasStatus .completed) = [] := by
  intro st reads status stext c h
  constructor
  · rfl
  · have hev : (generateSection ⟨true, .resp true status stext (some reads)⟩ st c).events
        = GenEvent.prog ⟨st, .generating, 0, none, none⟩ :: .fetchReq ::
          (processReads st reads "" 0).events := rfl
    rw [hev]
    simp only [progEvents, List.filterMap_cons]
    simp only [hasStatus, List.filter_cons]
    simp only [show ((⟨st, .generating, 0, none, none⟩ :
        GenerationProgress).status == GStatus.completed) = false from rfl]
    simp only [Bool.false_eq_true, if_false]
    exact processReads_no_completed st reads "" 0 h

/-- C10 witness: a single delta frame and then the stream ends with no
sentinel. -/
theorem C10_witness :
    (generateSection ⟨true, .resp true 200 "OK" (some [helloFrame])⟩ "s" none).result
      = .ok (processReads "s" [helloFrame] "" 0).content ∧
    (progEvents (generateSection ⟨true, .resp true 200 "OK" (some [helloFrame])⟩
        "s" none).events).filter (hasStatus .completed) = [] :=
  C10_stream_end_without_done "s" [helloFrame] 200 "OK" none (by decide)
